import Mathlib

/-!
Verification of the `ssn` Go package (Swedish social security numbers).

The package models a 12-digit SSN as a fixed array of digits, with a
Luhn-style checksum, a string parser/validator, a pattern-driven generator
for the trailing digits, and a formatter.  The repository carries an older
and a current revision of `ssn.go`; the definitions below embed the current
revision, which is the one the repository's test file compiles against
(it alone provides `Female`, `Date`, `Age`, literal digit directives and
the checksum-error-with-sequence behaviour the tests assert).

Randomness (`rand.Intn k`) is embedded by threading an explicit oracle:
each call site consumes one oracle slot reduced modulo its bound, so every
value in `[0, k)` is reachable and no other value is.  The Go `time.Parse`
calendar facility is modelled by an explicit Gregorian validity predicate.

Go strings are byte strings: `safeString` truncates and pads by BYTES
(`len(s)`, `s[:l2]`, `def[l1:l2]`), and `SetLastDigits` then converts its
4-byte result back to runes with `[]rune(...)`.  The embedding therefore
models a directive string as its rune sequence, UTF-8 encodes it to
bytes, applies the byte-level `safeString`, and decodes the padded bytes
back to runes with Go's `DecodeRune` rules (replacement character, one
byte consumed, on an invalid sequence).  A 4-byte padding can decode to
fewer than 4 runes, so the rune index accesses `ss[0] .. ss[3]` can be
out of range: that Go panic surfaces as `none`.
-/

namespace Ssn

/-- The 12-digit sequence `type SSN [12]int`.  Digits are `Nat`; every
value the package itself writes is a decimal digit `0-9`. -/
structure SSN where
  d0 : Nat
  d1 : Nat
  d2 : Nat
  d3 : Nat
  d4 : Nat
  d5 : Nat
  d6 : Nat
  d7 : Nat
  d8 : Nat
  d9 : Nat
  d10 : Nat
  d11 : Nat
deriving DecidableEq, Repr

/-- `getDigit(i) = (i % 10, i / 10)` from the source. -/
def getDigit (i : Nat) : Nat × Nat := (i % 10, i / 10)

/-- Fuel-driven evaluation of the `sumDigits` loop
`for i > 9 { i = i%10 + i/10 }`.  The loop strictly decreases `i`, so
fuel `i` always suffices; `sumDigits_spec` below proves the defining
loop equation. -/
def sumDigitsAux : Nat → Nat → Nat
  | 0, i => i
  | fuel + 1, i =>
    if 9 < i then sumDigitsAux fuel ((getDigit i).1 + (getDigit i).2) else i

/-- `sumDigits` from the source: repeatedly replace `i` by the sum of its
last digit and the remaining prefix value until the result is a digit. -/
def sumDigits (i : Nat) : Nat := sumDigitsAux i i

theorem sumDigitsAux_congr :
    ∀ f1 f2 i, i ≤ f1 → i ≤ f2 → sumDigitsAux f1 i = sumDigitsAux f2 i := by
  intro f1
  induction f1 with
  | zero =>
    intro f2 i h1 _
    interval_cases i
    cases f2 <;> simp [sumDigitsAux]
  | succ f ih =>
    intro f2 i h1 h2
    match f2, i with
    | 0, i =>
      interval_cases i
      simp [sumDigitsAux]
    | g + 1, i =>
      simp only [sumDigitsAux, getDigit]
      by_cases h : 9 < i
      · simp only [if_pos h]
        have hlt : i % 10 + i / 10 < i := by omega
        exact ih g (i % 10 + i / 10) (by omega) (by omega)
      · simp only [if_neg h]

/-- The loop equation of `sumDigits`: the embedding satisfies exactly the
recurrence the Go loop computes. -/
theorem sumDigits_spec (i : Nat) :
    sumDigits i = if 9 < i then sumDigits (i % 10 + i / 10) else i := by
  by_cases h : 9 < i
  · rw [if_pos h]
    unfold sumDigits
    obtain ⟨j, rfl⟩ : ∃ j, i = j + 10 := ⟨i - 10, by omega⟩
    have step : sumDigitsAux (j + 10) (j + 10)
        = sumDigitsAux (j + 9) ((j + 10) % 10 + (j + 10) / 10) := by
      show sumDigitsAux ((j + 9) + 1) (j + 10) = _
      simp only [sumDigitsAux, getDigit]
      rw [if_pos (by omega)]
    rw [step]
    exact sumDigitsAux_congr (j + 9) ((j + 10) % 10 + (j + 10) / 10)
      ((j + 10) % 10 + (j + 10) / 10) (by omega) (le_refl _)
  · rw [if_neg h]
    unfold sumDigits
    match i, h with
    | 0, _ => rfl
    | j + 1, h =>
      simp only [sumDigitsAux]
      rw [if_neg h]

theorem sumDigits_of_le9 {p : Nat} (h : p ≤ 9) : sumDigits p = p := by
  rw [sumDigits_spec, if_neg (by omega)]

theorem sumDigits_of_le18 {p : Nat} (h9 : 9 < p) (h18 : p ≤ 18) :
    sumDigits p = p / 10 + p % 10 := by
  rw [sumDigits_spec, if_pos h9, sumDigits_of_le9 (by omega)]
  omega

/-- The weight `((i+1)%2 + 1)` applied to position `i` in `GetChecksum`. -/
def luhnWeight (i : Nat) : Nat := (i + 1) % 2 + 1

/-- `GetChecksum` from the source: the loop `for i := 2; i < 11; i++`
unrolled, accumulating `sumDigits(((i+1)%2+1) * n[i])`, then
`(10 - sum%10) % 10`. -/
def GetChecksum (n : SSN) : Nat :=
  let sum :=
    sumDigits (luhnWeight 2 * n.d2) + sumDigits (luhnWeight 3 * n.d3) +
    sumDigits (luhnWeight 4 * n.d4) + sumDigits (luhnWeight 5 * n.d5) +
    sumDigits (luhnWeight 6 * n.d6) + sumDigits (luhnWeight 7 * n.d7) +
    sumDigits (luhnWeight 8 * n.d8) + sumDigits (luhnWeight 9 * n.d9) +
    sumDigits (luhnWeight 10 * n.d10)
  (10 - sum % 10) % 10

/-- The Luhn reference computation in the words of the specification:
for each position `i` from 2 to 10, a weight alternating `2,1,2,1,...`
starting at 2 for `i = 2`; multiply the digit by the weight; reduce a
product exceeding 9 by summing its decimal digits; sum the reduced
products; return `(10 - sum mod 10) mod 10`. -/
def luhnReference (n : SSN) : Nat :=
  let reduce : Nat → Nat := fun p => if 9 < p then p / 10 + p % 10 else p
  let w : Nat → Nat := fun i => if (i - 2) % 2 = 0 then 2 else 1
  let sum :=
    reduce (w 2 * n.d2) + reduce (w 3 * n.d3) + reduce (w 4 * n.d4) +
    reduce (w 5 * n.d5) + reduce (w 6 * n.d6) + reduce (w 7 * n.d7) +
    reduce (w 8 * n.d8) + reduce (w 9 * n.d9) + reduce (w 10 * n.d10)
  (10 - sum % 10) % 10

/-- All twelve entries are decimal digits. -/
def SSN.digits9 (n : SSN) : Prop :=
  n.d0 ≤ 9 ∧ n.d1 ≤ 9 ∧ n.d2 ≤ 9 ∧ n.d3 ≤ 9 ∧ n.d4 ≤ 9 ∧ n.d5 ≤ 9 ∧
  n.d6 ≤ 9 ∧ n.d7 ≤ 9 ∧ n.d8 ≤ 9 ∧ n.d9 ≤ 9 ∧ n.d10 ≤ 9 ∧ n.d11 ≤ 9

instance (n : SSN) : Decidable n.digits9 := by
  unfold SSN.digits9; infer_instance

/-- The sequence `{1,9,7,5,0,9,3,0,1,9,3,8}` used by the specification's
concrete checksum scenario. -/
def exampleSSN : SSN := ⟨1, 9, 7, 5, 0, 9, 3, 0, 1, 9, 3, 8⟩

theorem sumDigits_weighted_digit {w d : Nat} (hw : w ≤ 2) (hd : d ≤ 9) :
    sumDigits (w * d) = if 9 < w * d then w * d / 10 + w * d % 10 else w * d := by
  by_cases h : 9 < w * d
  · rw [if_pos h]
    exact sumDigits_of_le18 h (by nlinarith)
  · rw [if_neg h]
    exact sumDigits_of_le9 (by omega)

theorem getChecksum_eq_luhnReference (n : SSN) (h : n.digits9) :
    GetChecksum n = luhnReference n := by
  obtain ⟨_, _, h2, h3, h4, h5, h6, h7, h8, h9, h10, _⟩ := h
  unfold GetChecksum luhnReference luhnWeight
  rw [sumDigits_weighted_digit (by norm_num) h2,
    sumDigits_weighted_digit (by norm_num) h3,
    sumDigits_weighted_digit (by norm_num) h4,
    sumDigits_weighted_digit (by norm_num) h5,
    sumDigits_weighted_digit (by norm_num) h6,
    sumDigits_weighted_digit (by norm_num) h7,
    sumDigits_weighted_digit (by norm_num) h8,
    sumDigits_weighted_digit (by norm_num) h9,
    sumDigits_weighted_digit (by norm_num) h10]
  norm_num

theorem getChecksum_le9 (n : SSN) : GetChecksum n ≤ 9 := by
  simp only [GetChecksum]
  omega

/-- **C1**: for every 12-digit sequence with entries in `[0,9]`,
`GetChecksum` agrees with the Luhn reference computation the spec states
(alternating weights 2,1 from position 2, digit-sum reduction of products
above 9, `(10 - sum mod 10) mod 10`); on `{1,9,7,5,0,9,3,0,1,9,3,8}` the
result is 8; and the result always lies in `[0,9]`. -/
theorem C1_getChecksum_is_luhn :
    (∀ n : SSN, n.digits9 → GetChecksum n = luhnReference n) ∧
    GetChecksum exampleSSN = 8 ∧
    (∀ n : SSN, GetChecksum n ≤ 9) := by
  refine ⟨getChecksum_eq_luhnReference, ?_, getChecksum_le9⟩
  rw [getChecksum_eq_luhnReference exampleSSN (by decide)]
  decide

/-- Witness for C1: the refinement applied at the concrete example. -/
theorem C1_getChecksum_is_luhn_witness :
    GetChecksum exampleSSN = luhnReference exampleSSN :=
  C1_getChecksum_is_luhn.1 exampleSSN (by decide)

/-- `Female` from the source: `n[10] % 2 == 0`. -/
def Female (n : SSN) : Bool := n.d10 % 2 == 0

/-- **C10**: `Female` returns `true` exactly when digit 10 is even and
`false` exactly when it is odd; the code fixes the parity-to-sex
assignment (even = female) that the spec leaves open. -/
theorem C10_female_parity (n : SSN) :
    (Female n = true ↔ n.d10 % 2 = 0) ∧ (Female n = false ↔ n.d10 % 2 = 1) := by
  unfold Female
  constructor
  · simp
  · simp only [beq_eq_false_iff_ne, ne_eq]
    omega

/-- Witness for C10: applied at the concrete example sequence (digit 10
is 3, so `Female` is `false`). -/
theorem C10_female_parity_witness : Female exampleSSN = false :=
  (C10_female_parity exampleSSN).2.mpr (by decide)

/-- `GetRandomTime` from the current revision, over integer nanosecond
timestamps.  `now` stands for `time.Now()`; the oracle `r` models
`rand.Int63n(diff)`, whose value is `r % diff` (every value in
`[0, diff)` and no other).  `f` and `t` are the `from`/`to` durations. -/
def GetRandomTime (now f t : Int) (r : Nat) : Int :=
  let diff := f - t
  if diff ≤ 0 then now - f
  else now - (r % diff.toNat : Nat) - t

/-- **C8** (code bug): the spec and the repository's own test demand a
result in `[now - from, now - to)`, but with `from = 2, to = 1` and the
random draw 0 the code returns exactly `now - to = now - 1`, which is not
before `now - to`; the degenerate `from = to` guard itself does return
`now - from` as specified. -/
theorem C8_getRandomTime_hits_upper_bound (now : Int) :
    GetRandomTime now 2 1 0 = now - 1 ∧
    ¬ GetRandomTime now 2 1 0 < now - 1 ∧
    GetRandomTime now 2 2 0 = now - 2 := by
  refine ⟨?_, ?_, ?_⟩ <;> simp [GetRandomTime]

/-- `c` is an ASCII decimal digit, the condition under which Go's
`strconv.Atoi(string(r))` on a single rune succeeds. -/
def isDigitChar (c : Char) : Bool := 48 ≤ c.toNat && c.toNat ≤ 57

/-- Numeric value of an ASCII digit character. -/
def charVal (c : Char) : Nat := c.toNat - 48

/-- `safeString(s, def)` from the source, on BYTE strings: `len(s)` and
`len(def)` are byte lengths, `s[:l2]` and `def[l1:l2]` are byte slices;
truncate `s` to the byte length of `def`, or pad it with the byte tail
of `def`. -/
def safeString (s d : List Nat) : List Nat :=
  if d.length ≤ s.length then s.take d.length else s ++ d.drop s.length

/-- UTF-8 encoding of one rune (code point), as Go lays out string
literals. -/
def utf8EncodeChar (c : Char) : List Nat :=
  let n := c.toNat
  if n < 0x80 then [n]
  else if n < 0x800 then [0xC0 + n / 0x40, 0x80 + n % 0x40]
  else if n < 0x10000 then
    [0xE0 + n / 0x1000, 0x80 + n / 0x40 % 0x40, 0x80 + n % 0x40]
  else
    [0xF0 + n / 0x40000, 0x80 + n / 0x1000 % 0x40,
     0x80 + n / 0x40 % 0x40, 0x80 + n % 0x40]

/-- The UTF-8 byte string of a rune sequence (a Go string literal). -/
def utf8Encode (s : List Char) : List Nat := (s.map utf8EncodeChar).join

/-- Unicode replacement character `U+FFFD`, which Go's rune decoding
substitutes for each invalid byte. -/
def repChar : Char := Char.ofNat 0xFFFD

/-- `lo ≤ b ≤ hi`, as a byte-range test. -/
def between (lo b hi : Nat) : Bool := decide (lo ≤ b ∧ b ≤ hi)

/-- A UTF-8 continuation byte `0x80-0xBF`. -/
def cont (b : Nat) : Bool := between 0x80 b 0xBF

/-- Accepted range of the second byte of a 3-byte sequence (Go's
`acceptRanges`: `0xE0` needs `A0-BF`, `0xED` needs `80-9F` to exclude
surrogates, the rest `80-BF`). -/
def b1ok3 (b0 b1 : Nat) : Bool :=
  if b0 = 0xE0 then between 0xA0 b1 0xBF
  else if b0 = 0xED then between 0x80 b1 0x9F
  else cont b1

/-- Accepted range of the second byte of a 4-byte sequence (`0xF0`
needs `90-BF`, `0xF4` needs `80-8F`, the rest `80-BF`). -/
def b1ok4 (b0 b1 : Nat) : Bool :=
  if b0 = 0xF0 then between 0x90 b1 0xBF
  else if b0 = 0xF4 then between 0x80 b1 0x8F
  else cont b1

/-- Fuel-driven rune decoding of a byte string, following Go's
`utf8.DecodeRune`: ASCII, 2-, 3- and 4-byte sequences with the
`acceptRanges` bounds; any invalid or truncated sequence yields the
replacement character and consumes exactly one byte.  Each step consumes
at least one byte, so fuel equal to the byte length always suffices. -/
def utf8DecodeAux : Nat → List Nat → List Char
  | 0, _ => []
  | _ + 1, [] => []
  | fuel + 1, b0 :: bs =>
    if b0 < 0x80 then
      Char.ofNat b0 :: utf8DecodeAux fuel bs
    else if between 0xC2 b0 0xDF then
      match bs with
      | b1 :: bs2 =>
        if cont b1 then
          Char.ofNat ((b0 - 0xC0) * 0x40 + (b1 - 0x80)) :: utf8DecodeAux fuel bs2
        else repChar :: utf8DecodeAux fuel bs
      | [] => [repChar]
    else if between 0xE0 b0 0xEF then
      match bs with
      | b1 :: b2 :: bs3 =>
        if b1ok3 b0 b1 && cont b2 then
          Char.ofNat ((b0 - 0xE0) * 0x1000 + (b1 - 0x80) * 0x40 + (b2 - 0x80))
            :: utf8DecodeAux fuel bs3
        else repChar :: utf8DecodeAux fuel bs
      | _ => repChar :: utf8DecodeAux fuel bs
    else if between 0xF0 b0 0xF4 then
      match bs with
      | b1 :: b2 :: b3 :: bs4 =>
        if b1ok4 b0 b1 && cont b2 && cont b3 then
          Char.ofNat ((b0 - 0xF0) * 0x40000 + (b1 - 0x80) * 0x1000
              + (b2 - 0x80) * 0x40 + (b3 - 0x80))
            :: utf8DecodeAux fuel bs4
        else repChar :: utf8DecodeAux fuel bs
      | _ => repChar :: utf8DecodeAux fuel bs
    else repChar :: utf8DecodeAux fuel bs

/-- `[]rune(b)` on a byte string. -/
def utf8Decode (bs : List Nat) : List Char := utf8DecodeAux bs.length bs

/-- The rune slice `[]rune(safeString(s, "****"))` that `SetLastDigits`
indexes: encode the directive string, truncate/pad it to 4 BYTES,
decode back to runes.  Its length can be less than 4 when the padded
bytes hold multi-byte runes. -/
def paddedRunes (s : List Char) : List Char :=
  utf8Decode (safeString (utf8Encode s) (utf8Encode ['*', '*', '*', '*']))

/-- Oracle for the `rand.Intn` draws of one `SetLastDigits` call: one
slot per call site (positions 8, 9, 10, 11 in that order); a call
`rand.Intn k` yields its slot reduced `% k`. -/
structure Rand where
  r1 : Nat
  r2 : Nat
  r3 : Nat
  r4 : Nat

/-- `trySetDigitFromRune` from the source: `*` keeps the current value,
`?` draws `rand.Intn(10)`, a decimal digit rune sets that literal value,
anything else is a no-op. -/
def trySetDigitFromRune (r : Char) (cur draw : Nat) : Nat :=
  if r = '*' then cur
  else if r = '?' then draw % 10
  else if isDigitChar r then charVal r
  else cur

/-- First block of `SetLastDigits`: the `s`-override on positions 8/9,
otherwise `trySetDigitFromRune` on each of positions 8 and 9. -/
def step89 (n : SSN) (c0 c1 : Char) (g : Rand) : SSN :=
  if c0 = 's' ∨ c1 = 's' then
    { n with d8 := 9, d9 := g.r2 % 2 + 8 }
  else
    let na := { n with d8 := trySetDigitFromRune c0 n.d8 g.r1 }
    { na with d9 := trySetDigitFromRune c1 na.d9 g.r2 }

/-- Second block of `SetLastDigits`: the `switch ss[2]` on position 10
(`f` even draw, `m` odd draw, default `trySetDigitFromRune`). -/
def step10 (n : SSN) (c2 : Char) (g : Rand) : SSN :=
  if c2 = 'f' then { n with d10 := g.r3 % 5 * 2 }
  else if c2 = 'm' then { n with d10 := g.r3 % 5 * 2 + 1 }
  else { n with d10 := trySetDigitFromRune c2 n.d10 g.r3 }

/-- Third block of `SetLastDigits`: the `switch ss[3]` on position 11
(`c` computes the checksum of the current sequence, `*` keeps, default
`trySetDigitFromRune`). -/
def step11 (n : SSN) (c3 : Char) (g : Rand) : SSN :=
  if c3 = 'c' then { n with d11 := GetChecksum n }
  else if c3 = '*' then n
  else { n with d11 := trySetDigitFromRune c3 n.d11 g.r4 }

/-- Body of `SetLastDigits` once the four directive runes have been
read: the three statement blocks of the source in order. -/
def applyLast (n : SSN) (c0 c1 c2 c3 : Char) (g : Rand) : SSN :=
  step11 (step10 (step89 n c0 c1 g) c2 g) c3 g

/-- `SetLastDigits` from the source.  The four rune accesses
`ss[0] .. ss[3]` are modelled with `List.get?`, so an out-of-bounds
access (a Go panic, reachable because `paddedRunes` can be shorter than
4) surfaces as `none`. -/
def SetLastDigits (n : SSN) (s : List Char) (g : Rand) : Option SSN := do
  let ss := paddedRunes s
  let c0 ← ss.get? 0
  let c1 ← ss.get? 1
  let c2 ← ss.get? 2
  let c3 ← ss.get? 3
  return applyLast n c0 c1 c2 c3 g

theorem getD_of_get_some {l : List Char} {i : Nat} {c : Char} (d : Char)
    (h : l.get? i = some c) : l.getD i d = c := by
  rw [List.get?_eq_getElem?] at h
  induction l generalizing i with
  | nil => simp at h
  | cons x xs ih =>
    cases i with
    | zero =>
      simp at h
      simp [h]
    | succ k =>
      simp at h
      rw [List.getD_cons_succ]
      exact ih h

theorem setLastDigits_some {n : SSN} {s : List Char} {g : Rand} {m : SSN}
    (h : SetLastDigits n s g = some m) :
    m = applyLast n ((paddedRunes s).getD 0 '*') ((paddedRunes s).getD 1 '*')
      ((paddedRunes s).getD 2 '*') ((paddedRunes s).getD 3 '*') g := by
  simp only [SetLastDigits] at h
  cases hc0 : (paddedRunes s).get? 0 with
  | none => rw [hc0] at h; simp at h
  | some c0 =>
  rw [hc0] at h
  cases hc1 : (paddedRunes s).get? 1 with
  | none => rw [hc1] at h; simp at h
  | some c1 =>
  rw [hc1] at h
  cases hc2 : (paddedRunes s).get? 2 with
  | none => rw [hc2] at h; simp at h
  | some c2 =>
  rw [hc2] at h
  cases hc3 : (paddedRunes s).get? 3 with
  | none => rw [hc3] at h; simp at h
  | some c3 =>
  rw [hc3] at h
  simp at h
  rw [getD_of_get_some '*' hc0, getD_of_get_some '*' hc1,
    getD_of_get_some '*' hc2, getD_of_get_some '*' hc3]
  exact h.symm

theorem trySet_noop {c : Char} (h1 : c ≠ '*') (h2 : c ≠ '?')
    (h3 : isDigitChar c = false) (cur draw : Nat) :
    trySetDigitFromRune c cur draw = cur := by
  unfold trySetDigitFromRune
  rw [if_neg h1, if_neg h2, h3]
  simp

theorem step89_noop {c0 c1 : Char} (n : SSN) (g : Rand)
    (h01 : c0 ≠ 's') (h02 : c0 ≠ '*') (h03 : c0 ≠ '?')
    (h04 : isDigitChar c0 = false)
    (h11 : c1 ≠ 's') (h12 : c1 ≠ '*') (h13 : c1 ≠ '?')
    (h14 : isDigitChar c1 = false) :
    step89 n c0 c1 g = n := by
  unfold step89
  rw [if_neg (by simp [h01, h11])]
  dsimp only
  rw [trySet_noop h02 h03 h04, trySet_noop h12 h13 h14]

theorem step10_noop {c2 : Char} (n : SSN) (g : Rand)
    (h21 : c2 ≠ 'f') (h22 : c2 ≠ 'm') (h23 : c2 ≠ '*') (h24 : c2 ≠ '?')
    (h25 : isDigitChar c2 = false) :
    step10 n c2 g = n := by
  unfold step10
  rw [if_neg h21, if_neg h22, trySet_noop h23 h24 h25]

theorem step11_noop {c3 : Char} (n : SSN) (g : Rand)
    (h31 : c3 ≠ 'c') (h32 : c3 ≠ '*') (h33 : c3 ≠ '?')
    (h34 : isDigitChar c3 = false) :
    step11 n c3 g = n := by
  unfold step11
  rw [if_neg h31, if_neg h32, trySet_noop h32 h33 h34]

theorem step89_d10 (n : SSN) (c0 c1 : Char) (g : Rand) :
    (step89 n c0 c1 g).d10 = n.d10 := by
  unfold step89
  split <;> rfl

theorem step10_d8d9 (n : SSN) (c2 : Char) (g : Rand) :
    (step10 n c2 g).d8 = n.d8 ∧ (step10 n c2 g).d9 = n.d9 := by
  unfold step10
  constructor <;> (repeat' split) <;> rfl

theorem step11_d8d9d10 (n : SSN) (c3 : Char) (g : Rand) :
    (step11 n c3 g).d8 = n.d8 ∧ (step11 n c3 g).d9 = n.d9 ∧
    (step11 n c3 g).d10 = n.d10 := by
  unfold step11
  refine ⟨?_, ?_, ?_⟩ <;> (repeat' split) <;> rfl

/-- A fixed oracle used in witnesses. -/
def g0 : Rand := ⟨0, 0, 0, 0⟩

/-- **C5**: the randomized directives draw from exactly the stated sets:
`?` yields a digit in the full range `0-9` (every such digit is
reachable), `f` at position 10 yields an even digit in `{0,2,4,6,8}`
(every one reachable), `m` at position 10 yields an odd digit in
`{1,3,5,7,9}` (every one reachable). -/
theorem C5_random_directive_ranges :
    (∀ (n : SSN) (g : Rand), ∃ m, SetLastDigits n ['?', '?', '?', '?'] g = some m ∧
      m.d8 ≤ 9 ∧ m.d9 ≤ 9 ∧ m.d10 ≤ 9 ∧ m.d11 ≤ 9) ∧
    (∀ v, v ≤ 9 → ∀ n : SSN, ∃ g m, SetLastDigits n ['?', '?', '?', '?'] g = some m ∧
      m.d8 = v ∧ m.d9 = v ∧ m.d10 = v ∧ m.d11 = v) ∧
    (∀ (n : SSN) (g : Rand), ∃ m, SetLastDigits n ['*', '*', 'f', '*'] g = some m ∧
      m.d10 % 2 = 0 ∧ m.d10 ≤ 8) ∧
    (∀ v, v % 2 = 0 → v ≤ 8 → ∀ n : SSN, ∃ g m,
      SetLastDigits n ['*', '*', 'f', '*'] g = some m ∧ m.d10 = v) ∧
    (∀ (n : SSN) (g : Rand), ∃ m, SetLastDigits n ['*', '*', 'm', '*'] g = some m ∧
      m.d10 % 2 = 1 ∧ m.d10 ≤ 9) ∧
    (∀ v, v % 2 = 1 → v ≤ 9 → ∀ n : SSN, ∃ g m,
      SetLastDigits n ['*', '*', 'm', '*'] g = some m ∧ m.d10 = v) := by
  have hq : ∀ (n : SSN) (g : Rand), SetLastDigits n ['?', '?', '?', '?'] g =
      some { n with d8 := g.r1 % 10, d9 := g.r2 % 10,
                    d10 := g.r3 % 10, d11 := g.r4 % 10 } := by
    intro n g
    rfl
  have hf : ∀ (n : SSN) (g : Rand), SetLastDigits n ['*', '*', 'f', '*'] g =
      some { n with d10 := g.r3 % 5 * 2 } := by
    intro n g
    rfl
  have hm : ∀ (n : SSN) (g : Rand), SetLastDigits n ['*', '*', 'm', '*'] g =
      some { n with d10 := g.r3 % 5 * 2 + 1 } := by
    intro n g
    rfl
  refine ⟨?_, ?_, ?_, ?_, ?_, ?_⟩
  · intro n g
    exact ⟨_, hq n g, by simp <;> omega, by simp <;> omega,
      by simp <;> omega, by simp <;> omega⟩
  · intro v hv n
    exact ⟨⟨v, v, v, v⟩, _, hq n ⟨v, v, v, v⟩,
      by simp <;> omega, by simp <;> omega, by simp <;> omega, by simp <;> omega⟩
  · intro n g
    exact ⟨_, hf n g, by simp <;> omega, by simp <;> omega⟩
  · intro v hv2 hv8 n
    refine ⟨⟨0, 0, v / 2, 0⟩, _, hf n ⟨0, 0, v / 2, 0⟩, by simp <;> omega⟩
  · intro n g
    exact ⟨_, hm n g, by simp <;> omega, by simp <;> omega⟩
  · intro v hv2 hv9 n
    refine ⟨⟨0, 0, v / 2, 0⟩, _, hm n ⟨0, 0, v / 2, 0⟩, by simp <;> omega⟩

/-- Witness for C5: every part applied at concrete inputs. -/
theorem C5_random_directive_ranges_witness :
    (∃ m, SetLastDigits exampleSSN ['?', '?', '?', '?'] g0 = some m ∧
      m.d8 ≤ 9 ∧ m.d9 ≤ 9 ∧ m.d10 ≤ 9 ∧ m.d11 ≤ 9) ∧
    (∃ g m, SetLastDigits exampleSSN ['?', '?', '?', '?'] g = some m ∧
      m.d8 = 7 ∧ m.d9 = 7 ∧ m.d10 = 7 ∧ m.d11 = 7) ∧
    (∃ g m, SetLastDigits exampleSSN ['*', '*', 'f', '*'] g = some m ∧ m.d10 = 8) ∧
    (∃ g m, SetLastDigits exampleSSN ['*', '*', 'm', '*'] g = some m ∧ m.d10 = 9) :=
  ⟨C5_random_directive_ranges.1 exampleSSN g0,
   C5_random_directive_ranges.2.1 7 (by decide) exampleSSN,
   C5_random_directive_ranges.2.2.2.1 8 (by decide) (by decide) exampleSSN,
   C5_random_directive_ranges.2.2.2.2.2 9 (by decide) (by decide) exampleSSN⟩

theorem applyLast_s_d8d9 (n : SSN) (c0 c1 c2 c3 : Char) (g : Rand)
    (h : c0 = 's' ∨ c1 = 's') :
    (applyLast n c0 c1 c2 c3 g).d8 = 9 ∧
    (applyLast n c0 c1 c2 c3 g).d9 = g.r2 % 2 + 8 := by
  unfold applyLast
  obtain ⟨h8, h9, _⟩ := step11_d8d9d10 (step10 (step89 n c0 c1 g) c2 g) c3 g
  obtain ⟨h8b, h9b⟩ := step10_d8d9 (step89 n c0 c1 g) c2 g
  refine ⟨?_, ?_⟩
  · rw [h8, h8b]
    unfold step89
    rw [if_pos h]
  · rw [h9, h9b]
    unfold step89
    rw [if_pos h]

/-- **C6**: an `s` in either of the first two padded directive rune
positions sets digit 8 to 9 and digit 9 to a random value in `{8,9}`
(both reachable), overriding the other serial directive — stated for
every directive string whose call returns (the rune indexing of a
multi-byte directive can panic, which is claim C7's concern); in
particular `"ss?c"` always completes with digit 8 = 9 and digit 9 in
`{8,9}`. -/
theorem C6_safe_directive :
    (∀ (s : List Char) (n : SSN) (g : Rand) (m : SSN),
      SetLastDigits n s g = some m →
      ((paddedRunes s).getD 0 '*' = 's' ∨ (paddedRunes s).getD 1 '*' = 's') →
      m.d8 = 9 ∧ (m.d9 = 8 ∨ m.d9 = 9)) ∧
    (∀ b, b = 8 ∨ b = 9 → ∀ n : SSN, ∃ g m,
      SetLastDigits n ['s', 's', '?', 'c'] g = some m ∧ m.d8 = 9 ∧ m.d9 = b) ∧
    (∀ (n : SSN) (g : Rand), ∃ m, SetLastDigits n ['s', 's', '?', 'c'] g = some m ∧
      m.d8 = 9 ∧ (m.d9 = 8 ∨ m.d9 = 9)) := by
  have hss : ∀ (n : SSN) (g : Rand),
      SetLastDigits n ['s', 's', '?', 'c'] g = some
        { n with d8 := 9, d9 := g.r2 % 2 + 8, d10 := g.r3 % 10,
                 d11 := GetChecksum { n with d8 := 9, d9 := g.r2 % 2 + 8,
                                             d10 := g.r3 % 10 } } := by
    intro n g
    rfl
  refine ⟨?_, ?_, ?_⟩
  · intro s n g m hm h
    obtain rfl := setLastDigits_some hm
    obtain ⟨h8, h9⟩ := applyLast_s_d8d9 n _ _ _ _ g h
    exact ⟨h8, by omega⟩
  · intro b hb n
    refine ⟨⟨0, b - 8, 0, 0⟩, _, hss n ⟨0, b - 8, 0, 0⟩, by simp, by simp <;> omega⟩
  · intro n g
    exact ⟨_, hss n g, by simp, by simp <;> omega⟩

/-- Witness for C6: the override applied at a concrete pattern and both
reachable values of digit 9. -/
theorem C6_safe_directive_witness :
    ((SSN.mk 1 9 7 5 0 9 3 0 9 8 3 8).d8 = 9 ∧
      ((SSN.mk 1 9 7 5 0 9 3 0 9 8 3 8).d9 = 8 ∨
       (SSN.mk 1 9 7 5 0 9 3 0 9 8 3 8).d9 = 9)) ∧
    (∃ g m, SetLastDigits exampleSSN ['s', 's', '?', 'c'] g = some m ∧
      m.d8 = 9 ∧ m.d9 = 8) ∧
    (∃ g m, SetLastDigits exampleSSN ['s', 's', '?', 'c'] g = some m ∧
      m.d8 = 9 ∧ m.d9 = 9) :=
  ⟨C6_safe_directive.1 ['s', '*', '*', '*'] exampleSSN g0
     (SSN.mk 1 9 7 5 0 9 3 0 9 8 3 8) (by decide) (by decide),
   C6_safe_directive.2.1 8 (by decide) exampleSSN,
   C6_safe_directive.2.1 9 (by decide) exampleSSN⟩

/-- **C7** (code bug): `SetLastDigits` is NOT total over arbitrary
directive strings.  `safeString` truncates/pads by bytes, so the 4-byte
result can decode to fewer than 4 runes and the rune indexing panics:
the 2-byte directive `"é"` pads to the 4 bytes `é**` = 3 runes (the
`ss[3]` access is out of range), and the 4-byte directive `"😀"` is
kept as 1 rune (the `ss[1]` access is out of range).  On 4-rune ASCII
directives the call does complete, with unrecognized characters as
no-ops (`"xyzw"` leaves the sequence untouched). -/
theorem C7_setLastDigits_panics_on_multibyte :
    SetLastDigits exampleSSN ['é'] g0 = none ∧
    (paddedRunes ['é']).length = 3 ∧
    SetLastDigits exampleSSN ['😀'] g0 = none ∧
    (paddedRunes ['😀']).length = 1 ∧
    SetLastDigits exampleSSN ['x', 'y', 'z', 'w'] g0 = some exampleSSN := by
  refine ⟨by decide, by decide, by decide, by decide, by decide⟩

/-- **C9**: applying pattern `"***c"` to any sequence sets digit 11 to
exactly `GetChecksum` of that sequence and leaves positions 0-10
unchanged; moreover `GetChecksum` reads only positions 2-10, so the
written digit is the checksum over positions 2-10 of the original
sequence. -/
theorem C9_pattern_star_star_star_c :
    (∀ (n : SSN) (g : Rand),
      SetLastDigits n ['*', '*', '*', 'c'] g = some { n with d11 := GetChecksum n }) ∧
    (∀ n m : SSN, n.d2 = m.d2 → n.d3 = m.d3 → n.d4 = m.d4 → n.d5 = m.d5 →
      n.d6 = m.d6 → n.d7 = m.d7 → n.d8 = m.d8 → n.d9 = m.d9 → n.d10 = m.d10 →
      GetChecksum n = GetChecksum m) := by
  constructor
  · intro n g
    rfl
  · intro n m h2 h3 h4 h5 h6 h7 h8 h9 h10
    simp only [GetChecksum]
    rw [h2, h3, h4, h5, h6, h7, h8, h9, h10]

/-- Witness for C9: applied at the example sequence, and checksum
independence of positions 0, 1 and 11 at concrete sequences. -/
theorem C9_pattern_star_star_star_c_witness :
    SetLastDigits exampleSSN ['*', '*', '*', 'c'] g0
      = some { exampleSSN with d11 := GetChecksum exampleSSN } ∧
    GetChecksum exampleSSN = GetChecksum (SSN.mk 0 0 7 5 0 9 3 0 1 9 3 0) :=
  ⟨C9_pattern_star_star_star_c.1 exampleSSN g0,
   C9_pattern_star_star_star_c.2 exampleSSN (SSN.mk 0 0 7 5 0 9 3 0 1 9 3 0)
     rfl rfl rfl rfl rfl rfl rfl rfl rfl⟩

/-- The guard regexp of the current revision,
`^[0-9]{8}-?[0-9]{4}$`, with the optional dash expanded into its two
alternatives: 12 digits, or 8 digits, a dash at index 8, 4 digits. -/
def matchSSNFormat (cs : List Char) : Bool :=
  (cs.length == 12 && cs.all isDigitChar) ||
  (cs.length == 13 && (cs.take 8).all isDigitChar &&
    (cs.getD 8 '0' == '-') && (cs.drop 9).all isDigitChar)

/-- The source's dash normalization (`s = s[0:8] + "-" + s[8:12]` when
the input has length 12) followed by reading `s[0:8]` and `s[9:13]`:
the twelve digit characters of an accepted input. -/
def digits12 (cs : List Char) : List Char :=
  if cs.length == 12 then cs else cs.take 8 ++ cs.drop 9

/-- Value parsed by `time.Parse` from the four year characters. -/
def yearOfChars (ds : List Char) : Nat :=
  charVal (ds.getD 0 '0') * 1000 + charVal (ds.getD 1 '0') * 100 +
  charVal (ds.getD 2 '0') * 10 + charVal (ds.getD 3 '0')

/-- Value parsed by `time.Parse` from the two month characters. -/
def monthOfChars (ds : List Char) : Nat :=
  charVal (ds.getD 4 '0') * 10 + charVal (ds.getD 5 '0')

/-- Value parsed by `time.Parse` from the two day characters. -/
def dayOfChars (ds : List Char) : Nat :=
  charVal (ds.getD 6 '0') * 10 + charVal (ds.getD 7 '0')

/-- Modelled from the spec: leap-year rule of the external calendar
facility (Go's `time` package, proleptic Gregorian). -/
def isLeapYear (y : Nat) : Bool :=
  y % 4 == 0 && (y % 100 != 0 || y % 400 == 0)

/-- Modelled from the spec: days in a month per the external calendar
facility (Go's `time` package). -/
def daysInMonth (y m : Nat) : Nat :=
  if m == 2 then (if isLeapYear y then 29 else 28)
  else if m == 4 || m == 6 || m == 9 || m == 11 then 30
  else 31

/-- Modelled from the spec: the external calendar facility accepts a
year/month/day combination exactly when the month is 1-12 and the day
fits the month (Go `time.Parse` "month/day out of range" checks). -/
def dateValid (y m d : Nat) : Prop :=
  1 ≤ m ∧ m ≤ 12 ∧ 1 ≤ d ∧ d ≤ daysInMonth y m

instance (y m d : Nat) : Decidable (dateValid y m d) := by
  unfold dateValid
  infer_instance

/-- `SetDate` from the source: write the year digits into positions
0-3, the month digits into 4-5 and the day digits into 6-7 via the
`getDigit` chain. -/
def SetDate (n : SSN) (y m d : Nat) : SSN :=
  let p3 := getDigit y
  let p2 := getDigit p3.2
  let p1 := getDigit p2.2
  let p0 := getDigit p1.2
  let q5 := getDigit m
  let q4 := getDigit q5.2
  let r7 := getDigit d
  let r6 := getDigit r7.2
  { n with d0 := p0.1, d1 := p1.1, d2 := p2.1, d3 := p3.1,
           d4 := q4.1, d5 := q5.1, d6 := r6.1, d7 := r7.1 }

/-- The sequence the parser builds from the twelve digit characters:
`var ssn SSN`, `ssn.SetDate(tm)`, then the four trailing digits. -/
def decodeSSN (ds : List Char) : SSN :=
  let n0 := SetDate (SSN.mk 0 0 0 0 0 0 0 0 0 0 0 0)
    (yearOfChars ds) (monthOfChars ds) (dayOfChars ds)
  let n1 := { n0 with d8 := charVal (ds.getD 8 '0') }
  let n2 := { n1 with d9 := charVal (ds.getD 9 '0') }
  let n3 := { n2 with d10 := charVal (ds.getD 10 '0') }
  { n3 with d11 := charVal (ds.getD 11 '0') }

/-- The four outcomes of `NewSSNFromString`: `(nil, ErrFormat)`,
`(nil, ErrDate)`, `(&ssn, ErrChecksum)`, `(&ssn, nil)`. -/
inductive ParseResult where
  | formatErr : ParseResult
  | dateErr : ParseResult
  | checksumErr : SSN → ParseResult
  | ok : SSN → ParseResult
deriving DecidableEq, Repr

/-- `NewSSNFromString` from the current revision: regexp guard, dash
normalization, `time.Parse` date check, digit extraction, checksum
comparison; on checksum mismatch the decoded sequence is returned
alongside the error. -/
def NewSSNFromString (cs : List Char) : ParseResult :=
  if matchSSNFormat cs then
    if dateValid (yearOfChars (digits12 cs)) (monthOfChars (digits12 cs))
        (dayOfChars (digits12 cs)) then
      if GetChecksum (decodeSSN (digits12 cs)) ≠ (decodeSSN (digits12 cs)).d11 then
        ParseResult.checksumErr (decodeSSN (digits12 cs))
      else ParseResult.ok (decodeSSN (digits12 cs))
    else ParseResult.dateErr
  else ParseResult.formatErr

/-- `strconv.Itoa` on a natural number. -/
def itoa (n : Nat) : List Char := (Nat.repr n).toList

/-- `Format` from the source: emit digits 0-11 (or 2-11 without
century), inserting the dash after the digit at index 7. -/
def Format (n : SSN) (century dash : Bool) : List Char :=
  (if century then itoa n.d0 ++ itoa n.d1 else []) ++
  itoa n.d2 ++ itoa n.d3 ++ itoa n.d4 ++ itoa n.d5 ++
  itoa n.d6 ++ itoa n.d7 ++ (if dash then ['-'] else []) ++
  itoa n.d8 ++ itoa n.d9 ++ itoa n.d10 ++ itoa n.d11

/-- The digit values of the twelve digit characters of an accepted
input, stated independently of the parser's build order. -/
def digitsOf (cs : List Char) : SSN :=
  SSN.mk (charVal ((digits12 cs).getD 0 '0')) (charVal ((digits12 cs).getD 1 '0'))
    (charVal ((digits12 cs).getD 2 '0')) (charVal ((digits12 cs).getD 3 '0'))
    (charVal ((digits12 cs).getD 4 '0')) (charVal ((digits12 cs).getD 5 '0'))
    (charVal ((digits12 cs).getD 6 '0')) (charVal ((digits12 cs).getD 7 '0'))
    (charVal ((digits12 cs).getD 8 '0')) (charVal ((digits12 cs).getD 9 '0'))
    (charVal ((digits12 cs).getD 10 '0')) (charVal ((digits12 cs).getD 11 '0'))

/-- The two accepted input shapes in the words of the claim: exactly 8
decimal digits, an optional single separator, then exactly 4 decimal
digits. -/
def goodShape (cs : List Char) : Prop :=
  (∃ a b : List Char, cs = a ++ b ∧ a.length = 8 ∧ b.length = 4 ∧
    (∀ c ∈ a, isDigitChar c = true) ∧ (∀ c ∈ b, isDigitChar c = true)) ∨
  (∃ a b : List Char, cs = a ++ '-' :: b ∧ a.length = 8 ∧ b.length = 4 ∧
    (∀ c ∈ a, isDigitChar c = true) ∧ (∀ c ∈ b, isDigitChar c = true))

/-- Year digits of a sequence read as a four-digit number. -/
def yearOfSSN (n : SSN) : Nat := n.d0 * 1000 + n.d1 * 100 + n.d2 * 10 + n.d3

/-- Month digits of a sequence read as a two-digit number. -/
def monthOfSSN (n : SSN) : Nat := n.d4 * 10 + n.d5

/-- Day digits of a sequence read as a two-digit number. -/
def dayOfSSN (n : SSN) : Nat := n.d6 * 10 + n.d7

/-- The all-zero sequence. -/
def zeroSSN : SSN := ⟨0, 0, 0, 0, 0, 0, 0, 0, 0, 0, 0, 0⟩

/-- The ASCII digit character of a digit value. -/
def dchar (d : Nat) : Char := Char.ofNat (48 + d)

theorem SSN.ext12 {a b : SSN} (h0 : a.d0 = b.d0) (h1 : a.d1 = b.d1)
    (h2 : a.d2 = b.d2) (h3 : a.d3 = b.d3) (h4 : a.d4 = b.d4) (h5 : a.d5 = b.d5)
    (h6 : a.d6 = b.d6) (h7 : a.d7 = b.d7) (h8 : a.d8 = b.d8) (h9 : a.d9 = b.d9)
    (h10 : a.d10 = b.d10) (h11 : a.d11 = b.d11) : a = b := by
  cases a
  cases b
  simp_all

theorem charVal_le9 {c : Char} (h : isDigitChar c = true) : charVal c ≤ 9 := by
  unfold isDigitChar at h
  unfold charVal
  simp at h
  omega

theorem itoa_digit : ∀ d, d ≤ 9 → itoa d = [dchar d] := by decide

theorem isDigitChar_dchar : ∀ d, d ≤ 9 → isDigitChar (dchar d) = true := by decide

theorem charVal_dchar : ∀ d, d ≤ 9 → charVal (dchar d) = d := by decide

theorem all_getD {l : List Char} (h : l.all isDigitChar = true) :
    ∀ i, i < l.length → isDigitChar (l.getD i '0') = true := by
  intro i hi
  rw [List.getD_eq_getElem l '0' hi]
  exact List.all_eq_true.mp h _ (List.getElem_mem hi)

theorem digits12_facts {cs : List Char} (h : matchSSNFormat cs = true) :
    (digits12 cs).length = 12 ∧ (digits12 cs).all isDigitChar = true := by
  unfold matchSSNFormat at h
  simp only [Bool.or_eq_true, Bool.and_eq_true, beq_iff_eq] at h
  unfold digits12
  rcases h with ⟨h12, hall⟩ | ⟨⟨⟨h13, htake⟩, hdash⟩, hdrop⟩
  · rw [if_pos (by simp [h12])]
    exact ⟨h12, hall⟩
  · rw [if_neg (by simp [h13])]
    refine ⟨?_, ?_⟩
    · simp [h13]
    · rw [List.all_append]
      simp [htake, hdrop]

theorem digits12_digit {cs : List Char} (h : matchSSNFormat cs = true) :
    ∀ i, i < 12 → isDigitChar ((digits12 cs).getD i '0') = true := by
  obtain ⟨hl, ha⟩ := digits12_facts h
  intro i hi
  exact all_getD ha i (by rw [hl]; exact hi)

theorem decodeSSN_eq_digitsOf {cs : List Char} (h : matchSSNFormat cs = true) :
    decodeSSN (digits12 cs) = digitsOf cs := by
  have hd := digits12_digit h
  have b0 := charVal_le9 (hd 0 (by norm_num))
  have b1 := charVal_le9 (hd 1 (by norm_num))
  have b2 := charVal_le9 (hd 2 (by norm_num))
  have b3 := charVal_le9 (hd 3 (by norm_num))
  have b4 := charVal_le9 (hd 4 (by norm_num))
  have b5 := charVal_le9 (hd 5 (by norm_num))
  have b6 := charVal_le9 (hd 6 (by norm_num))
  have b7 := charVal_le9 (hd 7 (by norm_num))
  refine SSN.ext12 ?_ ?_ ?_ ?_ ?_ ?_ ?_ ?_ ?_ ?_ ?_ ?_ <;>
    simp only [decodeSSN, SetDate, getDigit, digitsOf,
      yearOfChars, monthOfChars, dayOfChars] <;>
    omega

theorem newSSN_eval {cs : List Char} (h : matchSSNFormat cs = true) :
    NewSSNFromString cs =
      if dateValid (yearOfChars (digits12 cs)) (monthOfChars (digits12 cs))
          (dayOfChars (digits12 cs)) then
        if GetChecksum (digitsOf cs) ≠ (digitsOf cs).d11 then
          ParseResult.checksumErr (digitsOf cs)
        else ParseResult.ok (digitsOf cs)
      else ParseResult.dateErr := by
  unfold NewSSNFromString
  rw [if_pos h, decodeSSN_eq_digitsOf h]

/-- **C2**: an input that passes the format and date checks but whose
checksum over positions 2-10 disagrees with digit 11 yields
`ChecksumError` together with the fully decoded sequence (the digit
values of the twelve input digit characters); a format failure or date
failure yields only the bare error, with no sequence. -/
theorem C2_checksum_error_keeps_sequence (cs : List Char) :
    (matchSSNFormat cs = true →
      dateValid (yearOfChars (digits12 cs)) (monthOfChars (digits12 cs))
        (dayOfChars (digits12 cs)) →
      GetChecksum (digitsOf cs) ≠ (digitsOf cs).d11 →
      NewSSNFromString cs = ParseResult.checksumErr (digitsOf cs)) ∧
    (matchSSNFormat cs = false → NewSSNFromString cs = ParseResult.formatErr) ∧
    (matchSSNFormat cs = true →
      ¬ dateValid (yearOfChars (digits12 cs)) (monthOfChars (digits12 cs))
        (dayOfChars (digits12 cs)) →
      NewSSNFromString cs = ParseResult.dateErr) := by
  refine ⟨?_, ?_, ?_⟩
  · intro hm hd hc
    rw [newSSN_eval hm, if_pos hd, if_pos hc]
  · intro hm
    unfold NewSSNFromString
    rw [if_neg (by simp [hm])]
  · intro hm hd
    rw [newSSN_eval hm, if_neg hd]

/-- Witness for C2: the repository's own test vectors — a checksum
mismatch returning the decoded sequence, a format error, a date
error. -/
theorem C2_checksum_error_keeps_sequence_witness :
    NewSSNFromString ("20090301-6684".toList)
      = ParseResult.checksumErr (digitsOf ("20090301-6684".toList)) ∧
    NewSSNFromString ("1975092-1938".toList) = ParseResult.formatErr ∧
    NewSSNFromString ("20101510-1234".toList) = ParseResult.dateErr :=
  ⟨(C2_checksum_error_keeps_sequence ("20090301-6684".toList)).1
     (by decide) (by decide) (by decide),
   (C2_checksum_error_keeps_sequence ("1975092-1938".toList)).2.1 (by decide),
   (C2_checksum_error_keeps_sequence ("20101510-1234".toList)).2.2
     (by decide) (by decide)⟩

theorem getD_append_length {a : List Char} (c : Char) (b : List Char) (d : Char) :
    (a ++ c :: b).getD a.length d = c := by
  induction a with
  | nil => rfl
  | cons x xs ih => simpa using ih

theorem match_iff_goodShape (cs : List Char) :
    matchSSNFormat cs = true ↔ goodShape cs := by
  constructor
  · intro h
    have hfacts := digits12_facts h
    unfold matchSSNFormat at h
    simp only [Bool.or_eq_true, Bool.and_eq_true, beq_iff_eq] at h
    unfold goodShape
    rcases h with ⟨h12, hall⟩ | ⟨⟨⟨h13, htake⟩, hdash⟩, hdrop⟩
    · left
      refine ⟨cs.take 8, cs.drop 8, (List.take_append_drop 8 cs).symm, ?_, ?_, ?_, ?_⟩
      · simp [h12]
      · simp [h12]
      · intro c hc
        exact List.all_eq_true.mp hall c (List.mem_of_mem_take hc)
      · intro c hc
        exact List.all_eq_true.mp hall c (List.mem_of_mem_drop hc)
    · right
      have h8 : 8 < cs.length := by omega
      have hcons : cs.drop 8 = cs[8] :: cs.drop 9 := List.drop_eq_getElem_cons h8
      have hdash8 : cs[8] = '-' := by
        rw [← List.getD_eq_getElem cs '0' h8]
        exact hdash
      refine ⟨cs.take 8, cs.drop 9, ?_, ?_, ?_, ?_, ?_⟩
      · conv_lhs => rw [← List.take_append_drop 8 cs]
        rw [hcons, hdash8]
      · simp [h13]
      · simp [h13]
      · intro c hc
        exact List.all_eq_true.mp htake c hc
      · intro c hc
        exact List.all_eq_true.mp hdrop c hc
  · intro h
    unfold matchSSNFormat
    simp only [Bool.or_eq_true, Bool.and_eq_true, beq_iff_eq]
    rcases h with ⟨a, b, rfl, ha, hb, hda, hdb⟩ | ⟨a, b, rfl, ha, hb, hda, hdb⟩
    · left
      refine ⟨by simp [ha, hb], ?_⟩
      rw [List.all_append]
      simp only [Bool.and_eq_true]
      exact ⟨List.all_eq_true.mpr hda, List.all_eq_true.mpr hdb⟩
    · right
      have hlen : (a ++ '-' :: b).length = 13 := by simp [ha, hb]
      refine ⟨⟨⟨hlen, ?_⟩, ?_⟩, ?_⟩
      · rw [show (8 : Nat) = a.length from ha.symm, List.take_left]
        exact List.all_eq_true.mpr hda
      · rw [show (8 : Nat) = a.length from ha.symm, getD_append_length]
      · have hdd : (a ++ '-' :: b).drop 9 = b := by
          have h1 : (a ++ '-' :: b).drop 8 = '-' :: b := by
            rw [show (8 : Nat) = a.length from ha.symm, List.drop_left]
          have h2 : ((a ++ '-' :: b).drop 8).drop 1 = (a ++ '-' :: b).drop 9 :=
            List.drop_drop 1 8 _
          rw [← h2, h1]
          rfl
        rw [hdd]
        exact List.all_eq_true.mpr hdb

/-- **C3**: `NewSSNFromString` fails with `FormatError` (and produces no
sequence) exactly on the inputs that do not have one of the two accepted
shapes — 8 decimal digits, an optional single `-` separator, then 4
decimal digits. -/
theorem C3_format_error_iff_bad_shape (cs : List Char) :
    NewSSNFromString cs = ParseResult.formatErr ↔ ¬ goodShape cs := by
  rw [← match_iff_goodShape]
  constructor
  · intro h hm
    rw [newSSN_eval hm] at h
    split at h
    · split at h <;> simp at h
    · simp at h
  · intro hm
    unfold NewSSNFromString
    rw [if_neg hm]

/-- Witness for C3: applied in both directions at concrete inputs — the
7-digit date prefix of the spec's scenario is rejected, and a well-formed
input is not a format error. -/
theorem C3_format_error_iff_bad_shape_witness :
    ¬ goodShape ("1975092-1938".toList) ∧
    ¬ NewSSNFromString ("19750930-1938".toList) = ParseResult.formatErr :=
  ⟨(C3_format_error_iff_bad_shape ("1975092-1938".toList)).mp (by decide),
   fun h => by
     have := (C3_format_error_iff_bad_shape ("19750930-1938".toList)).mp h
     exact this ((match_iff_goodShape ("19750930-1938".toList)).mp (by decide))⟩

/-- Counterexample to C4 as stated: the all-zero sequence satisfies the
checksum invariant, yet parsing its formatted text gives `DateError`
(the date digits `00000000` do not decode to a calendar date), not the
sequence back. -/
theorem C4_roundtrip_counterexample :
    GetChecksum zeroSSN = zeroSSN.d11 ∧
    NewSSNFromString (Format zeroSSN true true) = ParseResult.dateErr ∧
    NewSSNFromString (Format zeroSSN true true) ≠ ParseResult.ok zeroSSN := by
  refine ⟨by decide, by decide, by decide⟩

/-- **C4** (amended): for every 12-digit sequence with entries in
`[0,9]` whose date digits decode to a real calendar date and which
satisfies the checksum invariant, parsing the formatted text (century
and separator enabled) returns the sequence itself with no error. -/
theorem C4_roundtrip_amended (S : SSN) (h9 : S.digits9)
    (hdate : dateValid (yearOfSSN S) (monthOfSSN S) (dayOfSSN S))
    (hsum : GetChecksum S = S.d11) :
    NewSSNFromString (Format S true true) = ParseResult.ok S := by
  obtain ⟨b0, b1, b2, b3, b4, b5, b6, b7, b8, b9, b10, b11⟩ := h9
  have hfmt : Format S true true =
      [dchar S.d0, dchar S.d1, dchar S.d2, dchar S.d3, dchar S.d4, dchar S.d5,
       dchar S.d6, dchar S.d7, '-', dchar S.d8, dchar S.d9, dchar S.d10,
       dchar S.d11] := by
    unfold Format
    rw [if_pos rfl, if_pos rfl]
    rw [itoa_digit _ b0, itoa_digit _ b1, itoa_digit _ b2, itoa_digit _ b3,
      itoa_digit _ b4, itoa_digit _ b5, itoa_digit _ b6, itoa_digit _ b7,
      itoa_digit _ b8, itoa_digit _ b9, itoa_digit _ b10, itoa_digit _ b11]
    rfl
  have hds : digits12 (Format S true true) =
      [dchar S.d0, dchar S.d1, dchar S.d2, dchar S.d3, dchar S.d4, dchar S.d5,
       dchar S.d6, dchar S.d7, dchar S.d8, dchar S.d9, dchar S.d10,
       dchar S.d11] := by
    rw [hfmt]
    rfl
  have hmatch : matchSSNFormat (Format S true true) = true := by
    rw [hfmt]
    unfold matchSSNFormat
    simp [isDigitChar_dchar _ b0, isDigitChar_dchar _ b1, isDigitChar_dchar _ b2,
      isDigitChar_dchar _ b3, isDigitChar_dchar _ b4, isDigitChar_dchar _ b5,
      isDigitChar_dchar _ b6, isDigitChar_dchar _ b7, isDigitChar_dchar _ b8,
      isDigitChar_dchar _ b9, isDigitChar_dchar _ b10, isDigitChar_dchar _ b11]
  have hdigits : digitsOf (Format S true true) = S := by
    refine SSN.ext12 ?_ ?_ ?_ ?_ ?_ ?_ ?_ ?_ ?_ ?_ ?_ ?_ <;>
      simp [digitsOf, hds, charVal_dchar _ b0, charVal_dchar _ b1,
        charVal_dchar _ b2, charVal_dchar _ b3, charVal_dchar _ b4,
        charVal_dchar _ b5, charVal_dchar _ b6, charVal_dchar _ b7,
        charVal_dchar _ b8, charVal_dchar _ b9, charVal_dchar _ b10,
        charVal_dchar _ b11]
  have hy : yearOfChars (digits12 (Format S true true)) = yearOfSSN S := by
    rw [hds]
    unfold yearOfChars yearOfSSN
    simp [charVal_dchar _ b0, charVal_dchar _ b1, charVal_dchar _ b2,
      charVal_dchar _ b3]
  have hmo : monthOfChars (digits12 (Format S true true)) = monthOfSSN S := by
    rw [hds]
    unfold monthOfChars monthOfSSN
    simp [charVal_dchar _ b4, charVal_dchar _ b5]
  have hda : dayOfChars (digits12 (Format S true true)) = dayOfSSN S := by
    rw [hds]
    unfold dayOfChars dayOfSSN
    simp [charVal_dchar _ b6, charVal_dchar _ b7]
  rw [newSSN_eval hmatch, hy, hmo, hda, hdigits, if_pos hdate,
    if_neg (by simp [hsum])]

/-- Witness for C4 (amended): the round trip at the concrete sequence
`{1,9,7,5,0,9,3,0,1,9,3,8}` (date 1975-09-30, checksum 8). -/
theorem C4_roundtrip_amended_witness :
    NewSSNFromString (Format exampleSSN true true) = ParseResult.ok exampleSSN :=
  C4_roundtrip_amended exampleSSN (by decide) (by decide) (by decide)

end Ssn
